import Mathlib

/-!
# Verification of the presigned-upload purge job

Shallow embedding of `src/lambdas/presigned-cleanup/src/event_handler.rs`:
the purge orchestration (`purge_expired_presigned_tasks`), the per-tenant
reclaim (`purge_expired_presigned_tasks_tenant`) and the Lambda entry point
(`function_handler`).

The I/O operations the handler performs (pool acquisition, tenant listing,
expired-task query, record deletion, storage deletion) are modelled by an
explicit environment that decides which operations fail, together with an
explicit tenant store state and a trace of the operations that were issued.
State only changes when an operation succeeds; an attempted-but-failed
operation still appears in the trace (it was issued against the backend).
-/

namespace Docbox

/-- Status of a presigned upload task (`PresignedTaskStatus` in the database
crate). The `Completed`/`Failed` variants carry detail fields in the source
which the purge logic matches with `{ .. }` and never inspects; they are
elided here. -/
inductive PresignedTaskStatus : Type
  | Pending : PresignedTaskStatus
  | Completed : PresignedTaskStatus
  | Failed : PresignedTaskStatus
deriving DecidableEq, Repr

/-- A presigned upload task record (`PresignedUploadTask`): the fields the
purge logic reads are `id`, `file_key`, `expires_at` and `status`.
Timestamps are modelled as integers. -/
structure PresignedUploadTask : Type where
  id : Nat
  file_key : String
  expires_at : Int
  status : PresignedTaskStatus
deriving DecidableEq, Repr

/-- The observable per-tenant backend state: the task records in the tenant
database and the object keys present in the tenant storage namespace. -/
structure TenantState : Type where
  tasks : List PresignedUploadTask
  objects : List String
deriving DecidableEq, Repr

/-- One issued backend operation. Tenants are identified by `Nat`.
`findExpired` records the reference timestamp passed to the query. -/
inductive Event : Type
  | acquireRoot : Event
  | listTenants : Event
  | releaseRoot : Event
  | acquireTenant : Nat → Event
  | findExpired : Nat → Int → Event
  | deleteTask : Nat → Nat → Event
  | deleteFile : Nat → String → Event
deriving DecidableEq, Repr

/-- `true` exactly on the operations issued against tenant-scoped resources;
`false` on the three root-session operations. -/
def Event.tenantScoped : Event → Bool
  | Event.acquireRoot => false
  | Event.listTenants => false
  | Event.releaseRoot => false
  | _ => true

/-- Extracts the task id of a `deleteTask` event. -/
def Event.deleteTaskId : Event → Option Nat
  | Event.deleteTask _ id => some id
  | _ => none

/-- Extracts the reference timestamp of a `findExpired` event. -/
def Event.findTime : Event → Option Int
  | Event.findExpired _ time => some time
  | _ => none

/-- Fault injection for the tenant-scoped operations of one tenant purge:
whether the expired-task query fails, and which record / object deletions
fail (by task id, by object key). -/
structure TenantEnv : Type where
  findFails : Bool
  deleteTaskFails : Nat → Bool
  deleteFileFails : String → Bool

/-- Modelled from the spec: `PresignedUploadTask::find_expired` lives in the
external database crate, not under `src/`. Per the spec it selects all tasks
with `expires_at <= reference_time`, regardless of status, in a
deterministic order (here: store order); an empty result is not an error. -/
def find_expired (tasks : List PresignedUploadTask) (reference_time : Int) :
    List PresignedUploadTask :=
  tasks.filter (fun task => task.expires_at ≤ reference_time)

/-- Modelled from the spec: `PresignedUploadTask::delete` (external database
crate) removes the record with the given id from the tenant store. -/
def delete_task (tasks : List PresignedUploadTask) (id : Nat) :
    List PresignedUploadTask :=
  tasks.filter (fun task => task.id ≠ id)

/-- Modelled from the spec: `TenantStorageLayer::delete_file` (external
storage crate) removes the object at `key`; deleting an absent object is a
no-op. -/
def delete_file (objects : List String) (key : String) : List String :=
  objects.filter (fun k => k ≠ key)

/-- The operations one loop iteration of
`purge_expired_presigned_tasks_tenant` issues for `task`: the record delete,
then — only for `Pending`/`Failed` status — the storage-object delete. -/
def task_trace (tenant : Nat) (task : PresignedUploadTask) : List Event :=
  match task.status with
  | PresignedTaskStatus.Completed => [Event.deleteTask tenant task.id]
  | PresignedTaskStatus.Failed =>
      [Event.deleteTask tenant task.id, Event.deleteFile tenant task.file_key]
  | PresignedTaskStatus.Pending =>
      [Event.deleteTask tenant task.id, Event.deleteFile tenant task.file_key]

/-- One iteration of the reclaim loop in
`purge_expired_presigned_tasks_tenant` (event_handler.rs lines 111–131):
attempt the task-record delete (`if let Err(error) = ... { log }` — the
failure is only logged), then branch on the task's status and, for
`Pending`/`Failed`, attempt the storage-object delete (failure again only
logged). Note the status match runs whether or not the record delete
succeeded. -/
def reclaim_task (env : TenantEnv) (tenant : Nat) (st : TenantState)
    (task : PresignedUploadTask) : TenantState × List Event :=
  let st1 :=
    if env.deleteTaskFails task.id then st
    else TenantState.mk (delete_task st.tasks task.id) st.objects
  match task.status with
  | PresignedTaskStatus.Completed => (st1, [Event.deleteTask tenant task.id])
  | PresignedTaskStatus.Failed =>
      let st2 :=
        if env.deleteFileFails task.file_key then st1
        else TenantState.mk st1.tasks (delete_file st1.objects task.file_key)
      (st2, [Event.deleteTask tenant task.id, Event.deleteFile tenant task.file_key])
  | PresignedTaskStatus.Pending =>
      let st2 :=
        if env.deleteFileFails task.file_key then st1
        else TenantState.mk st1.tasks (delete_file st1.objects task.file_key)
      (st2, [Event.deleteTask tenant task.id, Event.deleteFile tenant task.file_key])

/-- The `for task in tasks` loop of `purge_expired_presigned_tasks_tenant`:
iterates over the snapshot returned by the finder, threading the backend
state and concatenating the issued operations; no iteration aborts the
loop. -/
def reclaim_tasks (env : TenantEnv) (tenant : Nat) :
    TenantState → List PresignedUploadTask → TenantState × List Event
  | st, [] => (st, [])
  | st, task :: rest =>
    let step := reclaim_task env tenant st task
    let recRes := reclaim_tasks env tenant step.1 rest
    (recRes.1, step.2 ++ recRes.2)

/-- `purge_expired_presigned_tasks_tenant` (event_handler.rs lines 101–134):
captures `current_date` once (here a parameter `current_date`, supplied by
the caller's clock), queries the expired tasks (a query failure propagates
with `?` as the tenant-level error), returns early on an empty result, and
otherwise runs the reclaim loop. -/
def purge_tenant (env : TenantEnv) (tenant : Nat) (current_date : Int)
    (st : TenantState) : Except Unit Unit × TenantState × List Event :=
  if env.findFails then
    (Except.error (), st, [Event.findExpired tenant current_date])
  else
    let tasks := find_expired st.tasks current_date
    if tasks.isEmpty then
      (Except.ok (), st, [Event.findExpired tenant current_date])
    else
      let res := reclaim_tasks env tenant st tasks
      (Except.ok (), res.1, Event.findExpired tenant current_date :: res.2)

/-- Iterating `purge_tenant` over a list of reference times, feeding each
run's final state to the next run (one entry per purge run). -/
def purge_tenant_runs (env : TenantEnv) (tenant : Nat) :
    TenantState → List Int → TenantState
  | st, [] => st
  | st, time :: rest =>
      purge_tenant_runs env tenant (purge_tenant env tenant time st).2.1 rest

/-- `PurgeExpiredPresignedError` from event_handler.rs. -/
inductive PurgeExpiredPresignedError : Type
  | ConnectDatabase : PurgeExpiredPresignedError
  | QueryTenants : PurgeExpiredPresignedError
deriving DecidableEq, Repr

/-- Fault injection and oracle data for one whole run: whether the root pool
acquisition fails, whether the tenant listing query fails, the tenants the
listing returns, which tenant pool acquisitions fail, the value `Utc::now()`
yields at the start of each tenant's purge, and each tenant's tenant-scoped
fault injection. -/
structure RunEnv : Type where
  rootPoolFails : Bool
  tenantsQueryFails : Bool
  tenants : List Nat
  tenantPoolFails : Nat → Bool
  clock : Nat → Int
  tenantEnv : Nat → TenantEnv

/-- The `for tenant in tenants` loop of `purge_expired_presigned_tasks`
(event_handler.rs lines 79–95): acquires the tenant pool — note the
`map_err(...)?`: an acquisition failure propagates `ConnectDatabase`
immediately, ending the loop — creates the (infallible) tenant storage
layer, and runs the tenant purge, whose `Err` is only logged. -/
def purge_tenants_loop (env : RunEnv) :
    (Nat → TenantState) → List Nat →
      Except PurgeExpiredPresignedError Unit × (Nat → TenantState) × List Event
  | st, [] => (Except.ok (), st, [])
  | st, tenant :: rest =>
    if env.tenantPoolFails tenant then
      (Except.error PurgeExpiredPresignedError.ConnectDatabase, st,
        [Event.acquireTenant tenant])
    else
      let tenantRes :=
        purge_tenant (env.tenantEnv tenant) tenant (env.clock tenant) (st tenant)
      let recRes :=
        purge_tenants_loop env (Function.update st tenant tenantRes.2.1) rest
      (recRes.1, recRes.2.1,
        Event.acquireTenant tenant :: tenantRes.2.2 ++ recRes.2.2)

/-- `purge_expired_presigned_tasks` (event_handler.rs lines 62–98): acquire
the root pool (`ConnectDatabase` on failure), list the tenants
(`QueryTenants` on failure), drop the root pool access, then run the tenant
loop. -/
def purge_expired_presigned_tasks (env : RunEnv) (st : Nat → TenantState) :
    Except PurgeExpiredPresignedError Unit × (Nat → TenantState) × List Event :=
  if env.rootPoolFails then
    (Except.error PurgeExpiredPresignedError.ConnectDatabase, st,
      [Event.acquireRoot])
  else if env.tenantsQueryFails then
    (Except.error PurgeExpiredPresignedError.QueryTenants, st,
      [Event.acquireRoot, Event.listTenants])
  else
    let loopRes := purge_tenants_loop env st env.tenants
    (loopRes.1, loopRes.2.1,
      Event.acquireRoot :: Event.listTenants :: Event.releaseRoot :: loopRes.2.2)

/-- `function_handler` (event_handler.rs lines 47–58): runs the purge and,
`if let Err(error) = ... { tracing::error! }`, logs any error it returns —
then returns `Ok(())` unconditionally to the Lambda runtime. -/
def function_handler (env : RunEnv) (st : Nat → TenantState) :
    Except Unit Unit × (Nat → TenantState) × List Event :=
  (Except.ok (),
    (purge_expired_presigned_tasks env st).2.1,
    (purge_expired_presigned_tasks env st).2.2)

/-! ### Concrete inputs for counterexamples and witnesses -/

/-- A concrete expired `Pending` task. -/
def exTask1 : PresignedUploadTask :=
  PresignedUploadTask.mk 1 "up/t1.bin" 0 PresignedTaskStatus.Pending

/-- A concrete expired `Completed` task. -/
def exTask2 : PresignedUploadTask :=
  PresignedUploadTask.mk 2 "up/t2.bin" 0 PresignedTaskStatus.Completed

/-- A fault-free tenant environment. -/
def exTenantEnvOk : TenantEnv :=
  TenantEnv.mk false (fun _ => false) (fun _ => false)

/-- A tenant environment where every record deletion fails. -/
def exTenantEnvRecordFails : TenantEnv :=
  TenantEnv.mk false (fun _ => true) (fun _ => false)

/-- A tenant environment where the expired-task query fails. -/
def exTenantEnvFindFails : TenantEnv :=
  TenantEnv.mk true (fun _ => false) (fun _ => false)

/-- A concrete tenant state: one expired pending task, its object present. -/
def exStatePending : TenantState :=
  TenantState.mk [exTask1] ["up/t1.bin"]

/-- A concrete global state assigning `exStatePending` to every tenant. -/
def exGlobalState : Nat → TenantState := fun _ => exStatePending

/-- A concrete tenant state: one expired completed task, its object present,
plus an unrelated object. -/
def exStateCompleted : TenantState :=
  TenantState.mk [exTask2] ["up/t2.bin", "other.bin"]

/-- A run environment whose tenant listing returns tenants 0 and 1 and where
acquiring tenant 0's pool fails. -/
def exEnvPoolFail0 : RunEnv :=
  RunEnv.mk false false [0, 1] (fun t => t == 0) (fun _ => 10)
    (fun _ => exTenantEnvOk)

/-- A run environment where the root pool acquisition fails. -/
def exEnvRootFail : RunEnv :=
  RunEnv.mk true false [] (fun _ => false) (fun _ => 0) (fun _ => exTenantEnvOk)

/-- A fault-free run environment with one tenant. -/
def exEnvOk : RunEnv :=
  RunEnv.mk false false [0] (fun _ => false) (fun _ => 10)
    (fun _ => exTenantEnvOk)

/-- A run environment where tenant 0's expired-task query fails. -/
def exEnvFindFail : RunEnv :=
  RunEnv.mk false false [0] (fun _ => false) (fun _ => 10)
    (fun _ => exTenantEnvFindFails)

/-! ### Shared lemmas: membership in the modelled store operations -/

theorem mem_find_expired {tasks : List PresignedUploadTask} {time : Int}
    {task : PresignedUploadTask} :
    task ∈ find_expired tasks time ↔ task ∈ tasks ∧ task.expires_at ≤ time := by
  simp [find_expired, List.mem_filter]

theorem mem_delete_task {tasks : List PresignedUploadTask} {id : Nat}
    {task : PresignedUploadTask} :
    task ∈ delete_task tasks id ↔ task ∈ tasks ∧ task.id ≠ id := by
  simp [delete_task, List.mem_filter]

theorem mem_delete_file {objects : List String} {key k : String} :
    k ∈ delete_file objects key ↔ k ∈ objects ∧ k ≠ key := by
  simp [delete_file, List.mem_filter]

/-! ### Shared lemmas: one reclaim iteration -/

theorem reclaim_task_trace (env : TenantEnv) (tenant : Nat) (st : TenantState)
    (task : PresignedUploadTask) :
    (reclaim_task env tenant st task).2 = task_trace tenant task := by
  rcases task with ⟨id, key, exp, status⟩
  cases status <;> rfl

theorem reclaim_task_tasks_eq (env : TenantEnv) (tenant : Nat)
    (st : TenantState) (task : PresignedUploadTask) :
    (reclaim_task env tenant st task).1.tasks =
      if env.deleteTaskFails task.id then st.tasks
      else delete_task st.tasks task.id := by
  rcases task with ⟨id, key, exp, status⟩
  cases status <;> cases h : env.deleteTaskFails id <;>
    cases h2 : env.deleteFileFails key <;> simp [reclaim_task, h, h2]

theorem reclaim_task_objects_completed (env : TenantEnv) (tenant : Nat)
    (st : TenantState) (task : PresignedUploadTask)
    (h : task.status = PresignedTaskStatus.Completed) :
    (reclaim_task env tenant st task).1.objects = st.objects := by
  rcases task with ⟨id, key, exp, status⟩
  cases status <;> simp_all [reclaim_task]
  cases h : env.deleteTaskFails id <;> simp [h]

theorem reclaim_task_objects_subset (env : TenantEnv) (tenant : Nat)
    (st : TenantState) (task : PresignedUploadTask) {k : String}
    (h : k ∈ (reclaim_task env tenant st task).1.objects) : k ∈ st.objects := by
  rcases task with ⟨id, key, exp, status⟩
  cases status <;> cases h1 : env.deleteTaskFails id <;>
    cases h2 : env.deleteFileFails key <;>
    simp_all [reclaim_task, mem_delete_file]

theorem reclaim_task_tasks_subset (env : TenantEnv) (tenant : Nat)
    (st : TenantState) (task : PresignedUploadTask) {x : PresignedUploadTask}
    (h : x ∈ (reclaim_task env tenant st task).1.tasks) : x ∈ st.tasks := by
  rw [reclaim_task_tasks_eq] at h
  by_cases hf : env.deleteTaskFails task.id
  · simpa [hf] using h
  · rw [if_neg hf, mem_delete_task] at h
    exact h.1

theorem reclaim_task_object_preserved (env : TenantEnv) (tenant : Nat)
    (st : TenantState) (task : PresignedUploadTask) {k : String}
    (hk : k ∈ st.objects) (h : task.file_key = k → task.status = PresignedTaskStatus.Completed) :
    k ∈ (reclaim_task env tenant st task).1.objects := by
  rcases task with ⟨id, key, exp, status⟩
  simp only at h hk
  cases status <;> cases h1 : env.deleteTaskFails id <;>
    cases h2 : env.deleteFileFails key <;>
    simp_all [reclaim_task, mem_delete_file] <;>
  · rintro rfl
    simp at h

/-! ### Shared lemmas: the reclaim loop -/

theorem reclaim_tasks_trace (env : TenantEnv) (tenant : Nat) :
    ∀ (tasks : List PresignedUploadTask) (st : TenantState),
      (reclaim_tasks env tenant st tasks).2 =
        (tasks.map (task_trace tenant)).flatten
  | [], _ => rfl
  | task :: rest, st => by
      simp [reclaim_tasks, reclaim_task_trace,
        reclaim_tasks_trace env tenant rest]

theorem reclaim_tasks_tasks_subset (env : TenantEnv) (tenant : Nat) :
    ∀ (tasks : List PresignedUploadTask) (st : TenantState)
      {x : PresignedUploadTask},
      x ∈ (reclaim_tasks env tenant st tasks).1.tasks → x ∈ st.tasks
  | [], _, _, h => h
  | task :: rest, st, x, h => by
      exact reclaim_task_tasks_subset env tenant st task
        (reclaim_tasks_tasks_subset env tenant rest _ h)

theorem reclaim_tasks_objects_subset (env : TenantEnv) (tenant : Nat) :
    ∀ (tasks : List PresignedUploadTask) (st : TenantState) {k : String},
      k ∈ (reclaim_tasks env tenant st tasks).1.objects → k ∈ st.objects
  | [], _, _, h => h
  | task :: rest, st, k, h => by
      exact reclaim_task_objects_subset env tenant st task
        (reclaim_tasks_objects_subset env tenant rest _ h)

theorem reclaim_tasks_object_preserved (env : TenantEnv) (tenant : Nat) :
    ∀ (tasks : List PresignedUploadTask) (st : TenantState) {k : String},
      k ∈ st.objects →
      (∀ l ∈ tasks, l.file_key = k → l.status = PresignedTaskStatus.Completed) →
      k ∈ (reclaim_tasks env tenant st tasks).1.objects
  | [], _, _, hk, _ => hk
  | task :: rest, st, k, hk, h => by
      exact reclaim_tasks_object_preserved env tenant rest _
        (reclaim_task_object_preserved env tenant st task hk
          (h task (List.mem_cons_self task rest)))
        (fun l hl => h l (List.mem_cons_of_mem task hl))

theorem reclaim_tasks_task_preserved (env : TenantEnv) (tenant : Nat) :
    ∀ (tasks : List PresignedUploadTask) (st : TenantState)
      {x : PresignedUploadTask},
      x ∈ st.tasks → (∀ l ∈ tasks, l.id ≠ x.id) →
      x ∈ (reclaim_tasks env tenant st tasks).1.tasks
  | [], _, _, hx, _ => hx
  | task :: rest, st, x, hx, h => by
      refine reclaim_tasks_task_preserved env tenant rest _ ?_
        (fun l hl => h l (List.mem_cons_of_mem task hl))
      rw [reclaim_task_tasks_eq]
      by_cases hf : env.deleteTaskFails task.id
      · simpa [hf] using hx
      · rw [if_neg hf, mem_delete_task]
        exact ⟨hx, fun hEq => h task (List.mem_cons_self task rest) hEq.symm⟩

theorem reclaim_tasks_id_removed (env : TenantEnv) (tenant : Nat) :
    ∀ (tasks : List PresignedUploadTask) (st : TenantState)
      {task : PresignedUploadTask},
      task ∈ tasks → env.deleteTaskFails task.id = false →
      ∀ x ∈ (reclaim_tasks env tenant st tasks).1.tasks, x.id ≠ task.id
  | [], _, _, hmem, _ => absurd hmem (List.not_mem_nil _)
  | l :: rest, st, task, hmem, hok => by
      rcases List.mem_cons.mp hmem with rfl | hmem2
      · intro x hx
        have hx1 : x ∈ (reclaim_task env tenant st task).1.tasks :=
          reclaim_tasks_tasks_subset env tenant rest _ hx
        rw [reclaim_task_tasks_eq, if_neg (by simp [hok]), mem_delete_task] at hx1
        exact hx1.2
      · exact fun x hx =>
          reclaim_tasks_id_removed env tenant rest _ hmem2 hok x hx

/-! ### Shared lemmas: one tenant purge -/

theorem purge_tenant_trace (env : TenantEnv) (tenant : Nat) (time : Int)
    (st : TenantState) (hfind : env.findFails = false) :
    (purge_tenant env tenant time st).2.2 =
      Event.findExpired tenant time ::
        ((find_expired st.tasks time).map (task_trace tenant)).flatten := by
  by_cases hE : (find_expired st.tasks time).isEmpty
  · rw [List.isEmpty_iff] at hE
    simp [purge_tenant, hfind, hE]
  · simp [purge_tenant, hfind, hE, reclaim_tasks_trace]

theorem purge_tenant_state (env : TenantEnv) (tenant : Nat) (time : Int)
    (st : TenantState) (hfind : env.findFails = false) :
    (purge_tenant env tenant time st).2.1 =
      (reclaim_tasks env tenant st (find_expired st.tasks time)).1 := by
  by_cases hE : (find_expired st.tasks time).isEmpty
  · rw [List.isEmpty_iff] at hE
    simp [purge_tenant, hfind, hE, reclaim_tasks]
  · simp [purge_tenant, hfind, hE]

theorem purge_tenant_state_find_failed (env : TenantEnv) (tenant : Nat)
    (time : Int) (st : TenantState) (hfind : env.findFails = true) :
    purge_tenant env tenant time st =
      (Except.error (), st, [Event.findExpired tenant time]) := by
  simp [purge_tenant, hfind]

theorem mem_task_trace {tenant : Nat} {task : PresignedUploadTask} {e : Event}
    (h : e ∈ task_trace tenant task) :
    e = Event.deleteTask tenant task.id ∨
      (e = Event.deleteFile tenant task.file_key ∧
        task.status ≠ PresignedTaskStatus.Completed) := by
  rcases task with ⟨id, key, exp, status⟩
  cases status <;> simp_all [task_trace]

theorem purge_tenant_tasks_subset (env : TenantEnv) (tenant : Nat)
    (time : Int) (st : TenantState) {x : PresignedUploadTask}
    (h : x ∈ (purge_tenant env tenant time st).2.1.tasks) : x ∈ st.tasks := by
  cases hfind : env.findFails
  · rw [purge_tenant_state env tenant time st hfind] at h
    exact reclaim_tasks_tasks_subset env tenant _ st h
  · rw [purge_tenant_state_find_failed env tenant time st hfind] at h
    exact h

theorem purge_tenant_deleteFile_mem (env : TenantEnv) (tenant : Nat)
    (time : Int) (st : TenantState) {t : Nat} {key : String}
    (h : Event.deleteFile t key ∈ (purge_tenant env tenant time st).2.2) :
    ∃ task, task ∈ find_expired st.tasks time ∧ task.file_key = key ∧
      task.status ≠ PresignedTaskStatus.Completed := by
  cases hfind : env.findFails
  · rw [purge_tenant_trace env tenant time st hfind] at h
    rcases List.mem_cons.mp h with hHead | hTail
    · cases hHead
    · rw [List.mem_flatten] at hTail
      obtain ⟨tr, htr, hetr⟩ := hTail
      rw [List.mem_map] at htr
      obtain ⟨task, htask, rfl⟩ := htr
      rcases mem_task_trace hetr with hDel | ⟨hFile, hStatus⟩
      · cases hDel
      · cases hFile
        exact ⟨task, htask, rfl, hStatus⟩
  · rw [purge_tenant_state_find_failed env tenant time st hfind] at h
    simp at h

theorem purge_tenant_findTime_events (env : TenantEnv) (tenant : Nat)
    (time : Int) (st : TenantState) {t : Nat} {τ : Int}
    (h : Event.findExpired t τ ∈ (purge_tenant env tenant time st).2.2) :
    t = tenant ∧ τ = time := by
  cases hfind : env.findFails
  · rw [purge_tenant_trace env tenant time st hfind] at h
    rcases List.mem_cons.mp h with hHead | hTail
    · cases hHead
      exact ⟨rfl, rfl⟩
    · rw [List.mem_flatten] at hTail
      obtain ⟨tr, htr, hetr⟩ := hTail
      rw [List.mem_map] at htr
      obtain ⟨task, _, rfl⟩ := htr
      rcases mem_task_trace hetr with hDel | ⟨hFile, _⟩
      · cases hDel
      · cases hFile
  · rw [purge_tenant_state_find_failed env tenant time st hfind] at h
    simp at h
    exact ⟨h.1, h.2⟩

theorem task_trace_filterMap_deleteTaskId (tenant : Nat)
    (task : PresignedUploadTask) :
    (task_trace tenant task).filterMap Event.deleteTaskId = [task.id] := by
  rcases task with ⟨id, key, exp, status⟩
  cases status <;> rfl

theorem task_trace_filterMap_findTime (tenant : Nat)
    (task : PresignedUploadTask) :
    (task_trace tenant task).filterMap Event.findTime = [] := by
  rcases task with ⟨id, key, exp, status⟩
  cases status <;> rfl

theorem flatten_filterMap_deleteTaskId (tenant : Nat) :
    ∀ tasks : List PresignedUploadTask,
      ((tasks.map (task_trace tenant)).flatten.filterMap Event.deleteTaskId) =
        tasks.map (fun task => task.id)
  | [] => rfl
  | task :: rest => by
      simp [List.filterMap_append, task_trace_filterMap_deleteTaskId,
        flatten_filterMap_deleteTaskId tenant rest]

theorem flatten_filterMap_findTime (tenant : Nat) :
    ∀ tasks : List PresignedUploadTask,
      ((tasks.map (task_trace tenant)).flatten.filterMap Event.findTime) = []
  | [] => rfl
  | task :: rest => by
      simp [List.filterMap_append, task_trace_filterMap_findTime,
        flatten_filterMap_findTime tenant rest]

/-! ### Shared lemmas: the tenant loop and the whole run -/

theorem mem_task_trace_tenantScoped {tenant : Nat}
    {task : PresignedUploadTask} {e : Event} (h : e ∈ task_trace tenant task) :
    e.tenantScoped = true := by
  rcases mem_task_trace h with rfl | ⟨rfl, _⟩ <;> rfl

theorem purge_tenant_trace_tenantScoped (env : TenantEnv) (tenant : Nat)
    (time : Int) (st : TenantState) {e : Event}
    (h : e ∈ (purge_tenant env tenant time st).2.2) : e.tenantScoped = true := by
  cases hfind : env.findFails
  · rw [purge_tenant_trace env tenant time st hfind] at h
    rcases List.mem_cons.mp h with rfl | hTail
    · rfl
    · rw [List.mem_flatten] at hTail
      obtain ⟨tr, htr, hetr⟩ := hTail
      rw [List.mem_map] at htr
      obtain ⟨task, _, rfl⟩ := htr
      exact mem_task_trace_tenantScoped hetr
  · rw [purge_tenant_state_find_failed env tenant time st hfind] at h
    simp at h
    cases h
    rfl

theorem purge_tenants_loop_tenantScoped (env : RunEnv) :
    ∀ (tenants : List Nat) (st : Nat → TenantState) {e : Event},
      e ∈ (purge_tenants_loop env st tenants).2.2 → e.tenantScoped = true
  | [], _, _, h => absurd h (List.not_mem_nil _)
  | tenant :: rest, st, e, h => by
      by_cases hfail : env.tenantPoolFails tenant
      · simp [purge_tenants_loop, hfail] at h
        cases h
        rfl
      · simp only [purge_tenants_loop, hfail, Bool.false_eq_true,
          ite_false, List.mem_cons, List.mem_append] at h
        rcases h with (rfl | h) | h
        · rfl
        · exact purge_tenant_trace_tenantScoped _ tenant _ _ h
        · exact purge_tenants_loop_tenantScoped env rest _ h

theorem purge_tenants_loop_findExpired_clock (env : RunEnv) :
    ∀ (tenants : List Nat) (st : Nat → TenantState) {t : Nat} {τ : Int},
      Event.findExpired t τ ∈ (purge_tenants_loop env st tenants).2.2 →
      τ = env.clock t
  | [], _, _, _, h => absurd h (List.not_mem_nil _)
  | tenant :: rest, st, t, τ, h => by
      by_cases hfail : env.tenantPoolFails tenant
      · simp [purge_tenants_loop, hfail] at h
      · simp only [purge_tenants_loop, hfail, Bool.false_eq_true,
          ite_false, List.mem_cons, List.mem_append] at h
        rcases h with (hAcq | h) | h
        · cases hAcq
        · obtain ⟨rfl, rfl⟩ := purge_tenant_findTime_events _ tenant _ _ h
          rfl
        · exact purge_tenants_loop_findExpired_clock env rest _ h

/-! ### C1 -/

/-- C1, counterexample: the claim says a tenant whose pool acquisition fails
is skipped and every subsequent tenant is still processed. In the run
environment `exEnvPoolFail0` (tenants 0 and 1, tenant 0's pool acquisition
fails, everything else fault-free) the run instead aborts with
`ConnectDatabase`: tenant 1 is never acquired and tenant 1's expired pending
task is left untouched. -/
theorem c1_counterexample :
    (purge_expired_presigned_tasks exEnvPoolFail0 exGlobalState).1 =
        Except.error PurgeExpiredPresignedError.ConnectDatabase ∧
      (purge_expired_presigned_tasks exEnvPoolFail0 exGlobalState).2.2 =
        [Event.acquireRoot, Event.listTenants, Event.releaseRoot,
          Event.acquireTenant 0] ∧
      ((purge_expired_presigned_tasks exEnvPoolFail0 exGlobalState).2.1 1).tasks
        = [exTask1] :=
  ⟨rfl, rfl, rfl⟩

/-- C1, amended: if acquiring a tenant's database pool fails during the
purge run, the failure is logged and the `?` operator propagates
`ConnectDatabase` out of the tenant loop immediately: that tenant and every
subsequent tenant in the list are not processed and the tenant states are
unchanged. (The storage-layer handle creation is infallible, so only the
database-pool acquisition can fail.) -/
theorem c1_tenant_pool_failure_aborts (env : RunEnv) (st : Nat → TenantState)
    (tenant : Nat) (rest : List Nat)
    (h : env.tenantPoolFails tenant = true) :
    purge_tenants_loop env st (tenant :: rest) =
      (Except.error PurgeExpiredPresignedError.ConnectDatabase, st,
        [Event.acquireTenant tenant]) := by
  simp [purge_tenants_loop, h]

/-- C1, witness for the amended theorem at a concrete input. -/
theorem c1_witness :
    exEnvPoolFail0.tenantPoolFails 0 = true ∧
      purge_tenants_loop exEnvPoolFail0 exGlobalState [0, 1] =
        (Except.error PurgeExpiredPresignedError.ConnectDatabase,
          exGlobalState, [Event.acquireTenant 0]) :=
  ⟨rfl, c1_tenant_pool_failure_aborts exEnvPoolFail0 exGlobalState 0 [1] rfl⟩

/-! ### C2 -/

/-- C2, counterexample: the claim says a failed task-record deletion
suppresses the storage-object deletion for that task. In the tenant
environment `exTenantEnvRecordFails` (record deletions fail, storage
deletions succeed) purging the single expired pending task `exTask1` leaves
its record in place — yet the trace still contains the storage delete for
its `file_key`, and the object is gone. -/
theorem c2_counterexample :
    (purge_tenant exTenantEnvRecordFails 0 10 exStatePending).2.2 =
        [Event.findExpired 0 10, Event.deleteTask 0 1,
          Event.deleteFile 0 "up/t1.bin"] ∧
      (purge_tenant exTenantEnvRecordFails 0 10 exStatePending).2.1.objects
        = [] ∧
      (purge_tenant exTenantEnvRecordFails 0 10 exStatePending).2.1.tasks
        = [exTask1] :=
  ⟨rfl, rfl, rfl⟩

/-- C2, amended: if the deletion of a `Pending` or `Failed` task's record
fails, the run logs the failure, leaves the record in place, and then STILL
attempts the storage-object deletion for that task (the status match runs
unconditionally after the record-delete attempt), before continuing with the
next task. -/
theorem c2_record_failure_still_deletes_storage (env : TenantEnv)
    (tenant : Nat) (st : TenantState) (task : PresignedUploadTask)
    (rest : List PresignedUploadTask)
    (h1 : env.deleteTaskFails task.id = true)
    (h2 : task.status ≠ PresignedTaskStatus.Completed) :
    (reclaim_task env tenant st task).1.tasks = st.tasks ∧
      (reclaim_task env tenant st task).2 =
        [Event.deleteTask tenant task.id,
          Event.deleteFile tenant task.file_key] ∧
      (reclaim_tasks env tenant st (task :: rest)).2 =
        (reclaim_task env tenant st task).2 ++
          (reclaim_tasks env tenant (reclaim_task env tenant st task).1 rest).2
    := by
  refine ⟨?_, ?_, rfl⟩
  · rw [reclaim_task_tasks_eq, if_pos h1]
  · rw [reclaim_task_trace]
    rcases task with ⟨id, key, exp, status⟩
    cases status
    · rfl
    · exact absurd rfl h2
    · rfl

/-- C2, witness for the amended theorem at a concrete input. -/
theorem c2_witness :
    exTenantEnvRecordFails.deleteTaskFails exTask1.id = true ∧
      exTask1.status ≠ PresignedTaskStatus.Completed ∧
      ((reclaim_task exTenantEnvRecordFails 0 exStatePending exTask1).1.tasks
          = exStatePending.tasks ∧
        (reclaim_task exTenantEnvRecordFails 0 exStatePending exTask1).2 =
          [Event.deleteTask 0 exTask1.id, Event.deleteFile 0 exTask1.file_key] ∧
        (reclaim_tasks exTenantEnvRecordFails 0 exStatePending [exTask1]).2 =
          (reclaim_task exTenantEnvRecordFails 0 exStatePending exTask1).2 ++
            (reclaim_tasks exTenantEnvRecordFails 0
              (reclaim_task exTenantEnvRecordFails 0 exStatePending exTask1).1
              []).2) :=
  ⟨rfl, by decide,
    c2_record_failure_still_deletes_storage exTenantEnvRecordFails 0
      exStatePending exTask1 [] rfl (by decide)⟩

/-! ### C3 -/

/-- C3, counterexample: the claim says the entry point returns a failure
result exactly when the root-level step fails. In `exEnvRootFail` the root
pool acquisition fails — the inner purge returns `ConnectDatabase` — yet
`function_handler` still returns `Ok(())` to the triggering infrastructure,
so the claimed equivalence is false. -/
theorem c3_counterexample :
    exEnvRootFail.rootPoolFails = true ∧
      (purge_expired_presigned_tasks exEnvRootFail exGlobalState).1 =
        Except.error PurgeExpiredPresignedError.ConnectDatabase ∧
      (function_handler exEnvRootFail exGlobalState).1 = Except.ok () :=
  ⟨rfl, rfl, rfl⟩

/-- C3, amended: the entry point `function_handler` returns success to the
triggering infrastructure unconditionally — root-level failures (and the
tenant-pool acquisition failures the inner purge propagates) are logged by
the handler and absorbed, never returned. -/
theorem c3_handler_always_ok (env : RunEnv) (st : Nat → TenantState) :
    (function_handler env st).1 = Except.ok () :=
  rfl

/-! ### C4 -/

theorem purge_tenant_object_preserved (env : TenantEnv) (tenant : Nat)
    (time : Int) (st : TenantState) {key : String} (hk : key ∈ st.objects)
    (h : ∀ task ∈ st.tasks,
      task.file_key = key → task.status = PresignedTaskStatus.Completed) :
    key ∈ (purge_tenant env tenant time st).2.1.objects := by
  cases hfind : env.findFails
  · rw [purge_tenant_state env tenant time st hfind]
    exact reclaim_tasks_object_preserved env tenant _ st hk
      (fun l hl => h l (mem_find_expired.mp hl).1)
  · rw [purge_tenant_state_find_failed env tenant time st hfind]
    exact hk

theorem purge_tenant_runs_object_preserved (env : TenantEnv) (tenant : Nat) :
    ∀ (times : List Int) (st : TenantState) {key : String},
      key ∈ st.objects →
      (∀ task ∈ st.tasks,
        task.file_key = key → task.status = PresignedTaskStatus.Completed) →
      key ∈ (purge_tenant_runs env tenant st times).objects
  | [], _, _, hk, _ => hk
  | time :: rest, st, key, hk, h => by
      exact purge_tenant_runs_object_preserved env tenant rest _
        (purge_tenant_object_preserved env tenant time st hk h)
        (fun task htask hkey =>
          h task (purge_tenant_tasks_subset env tenant time st htask) hkey)

/-- C4: if every task that carries a given `file_key` has status
`Completed`, then no purge run ever issues a storage-object deletion for
that key, and the object at that key survives any number of consecutive
purge runs (at arbitrary reference times) unchanged. In particular the
storage object of a `Completed` expired task is never deleted. -/
theorem c4_completed_object_never_deleted (env : TenantEnv) (tenant : Nat)
    (st : TenantState) (key : String)
    (h : ∀ task ∈ st.tasks,
      task.file_key = key → task.status = PresignedTaskStatus.Completed) :
    (∀ time, Event.deleteFile tenant key ∉ (purge_tenant env tenant time st).2.2) ∧
      (∀ times, key ∈ st.objects →
        key ∈ (purge_tenant_runs env tenant st times).objects) := by
  constructor
  · intro time hmem
    obtain ⟨task, htask, hkey, hstatus⟩ :=
      purge_tenant_deleteFile_mem env tenant time st hmem
    exact hstatus (h task (mem_find_expired.mp htask).1 hkey)
  · exact fun times hk => purge_tenant_runs_object_preserved env tenant times st hk h

/-- C4, witness at a concrete input: a store holding only the expired
`Completed` task `exTask2`; its object survives two consecutive runs and no
deletion for it is ever issued. -/
theorem c4_witness :
    (∀ task ∈ exStateCompleted.tasks,
        task.file_key = "up/t2.bin" →
          task.status = PresignedTaskStatus.Completed) ∧
      Event.deleteFile 0 "up/t2.bin" ∉
        (purge_tenant exTenantEnvOk 0 10 exStateCompleted).2.2 ∧
      "up/t2.bin" ∈
        (purge_tenant_runs exTenantEnvOk 0 exStateCompleted [10, 20]).objects :=
  ⟨by decide,
    (c4_completed_object_never_deleted exTenantEnvOk 0 exStateCompleted
      "up/t2.bin" (by decide)).1 10,
    (c4_completed_object_never_deleted exTenantEnvOk 0 exStateCompleted
      "up/t2.bin" (by decide)).2 [10, 20] (by decide)⟩

/-! ### C5 -/

theorem deleteTask_mem_task_trace (tenant : Nat) (task : PresignedUploadTask) :
    Event.deleteTask tenant task.id ∈ task_trace tenant task := by
  rcases task with ⟨id, key, exp, status⟩
  cases status <;> simp [task_trace]

/-- C5: if the expired-task query for a tenant succeeds, a record deletion
is issued for every task with `expires_at <= time`, regardless of its
status; and if moreover those record deletions succeed, no task with
`expires_at <= time` remains in the tenant store after the run. -/
theorem c5_expired_records_deleted (env : TenantEnv) (tenant : Nat)
    (time : Int) (st : TenantState) (hfind : env.findFails = false)
    (hdel : ∀ task ∈ find_expired st.tasks time,
      env.deleteTaskFails task.id = false) :
    (∀ task ∈ st.tasks, task.expires_at ≤ time →
        Event.deleteTask tenant task.id ∈ (purge_tenant env tenant time st).2.2) ∧
      (∀ task ∈ (purge_tenant env tenant time st).2.1.tasks,
        ¬ task.expires_at ≤ time) := by
  constructor
  · intro task htask hexp
    rw [purge_tenant_trace env tenant time st hfind]
    refine List.mem_cons_of_mem _ (List.mem_flatten.mpr ?_)
    exact ⟨task_trace tenant task,
      List.mem_map.mpr ⟨task, mem_find_expired.mpr ⟨htask, hexp⟩, rfl⟩,
      deleteTask_mem_task_trace tenant task⟩
  · intro task htask hexp
    rw [purge_tenant_state env tenant time st hfind] at htask
    have hsub : task ∈ st.tasks :=
      reclaim_tasks_tasks_subset env tenant _ st htask
    have hmemL : task ∈ find_expired st.tasks time :=
      mem_find_expired.mpr ⟨hsub, hexp⟩
    exact reclaim_tasks_id_removed env tenant _ st hmemL
      (hdel task hmemL) task htask rfl

/-- C5, witness at a concrete input: the single expired pending task of
`exStatePending` gets a record deletion issued and is gone afterwards. -/
theorem c5_witness :
    exTenantEnvOk.findFails = false ∧
      (∀ task ∈ find_expired exStatePending.tasks 10,
        exTenantEnvOk.deleteTaskFails task.id = false) ∧
      ((∀ task ∈ exStatePending.tasks, task.expires_at ≤ 10 →
          Event.deleteTask 0 task.id ∈
            (purge_tenant exTenantEnvOk 0 10 exStatePending).2.2) ∧
        (∀ task ∈ (purge_tenant exTenantEnvOk 0 10 exStatePending).2.1.tasks,
          ¬ task.expires_at ≤ 10)) :=
  ⟨rfl, by decide,
    c5_expired_records_deleted exTenantEnvOk 0 10 exStatePending rfl (by decide)⟩

/-! ### C6 -/

/-- C6: if a tenant's pool acquisition succeeds but its expired-task query
fails, the tenant purge returns the error to the loop, which only logs it:
that tenant's state is untouched (only the acquisition and the failed query
were issued for it) and the loop's outcome on the remaining tenants is
exactly as if it had started there — a finder failure never aborts the
purge loop. -/
theorem c6_finder_failure_skips_tenant (env : RunEnv) (st : Nat → TenantState)
    (tenant : Nat) (rest : List Nat)
    (h1 : env.tenantPoolFails tenant = false)
    (h2 : (env.tenantEnv tenant).findFails = true) :
    purge_tenants_loop env st (tenant :: rest) =
      ((purge_tenants_loop env st rest).1,
        (purge_tenants_loop env st rest).2.1,
        Event.acquireTenant tenant ::
          Event.findExpired tenant (env.clock tenant) ::
            (purge_tenants_loop env st rest).2.2) := by
  have hstate :
      (purge_tenant (env.tenantEnv tenant) tenant (env.clock tenant)
        (st tenant)).2.1 = st tenant := by
    rw [purge_tenant_state_find_failed _ _ _ _ h2]
  have htrace :
      (purge_tenant (env.tenantEnv tenant) tenant (env.clock tenant)
        (st tenant)).2.2 = [Event.findExpired tenant (env.clock tenant)] := by
    rw [purge_tenant_state_find_failed _ _ _ _ h2]
  simp [purge_tenants_loop, h1, hstate, htrace, Function.update_eq_self]

/-- C6, witness at a concrete input: tenant 0's finder fails; the loop over
`[0]` finishes successfully with tenant 0 skipped. -/
theorem c6_witness :
    exEnvFindFail.tenantPoolFails 0 = false ∧
      (exEnvFindFail.tenantEnv 0).findFails = true ∧
      purge_tenants_loop exEnvFindFail exGlobalState [0] =
        ((purge_tenants_loop exEnvFindFail exGlobalState []).1,
          (purge_tenants_loop exEnvFindFail exGlobalState []).2.1,
          Event.acquireTenant 0 :: Event.findExpired 0 10 ::
            (purge_tenants_loop exEnvFindFail exGlobalState []).2.2) :=
  ⟨rfl, rfl,
    c6_finder_failure_skips_tenant exEnvFindFail exGlobalState 0 [] rfl rfl⟩

/-! ### C7 -/

/-- C7: when the expired-task query succeeds, the operations of one tenant
purge are exactly the query followed by the per-task operation blocks of the
finder's result, in the finder's order; and each per-task block
(`task_trace`) issues the task-record deletion first and the storage-object
deletion (for non-`Completed` tasks only) second. -/
theorem c7_reclaim_order (env : TenantEnv) (tenant : Nat) (time : Int)
    (st : TenantState) (hfind : env.findFails = false) :
    (purge_tenant env tenant time st).2.2 =
      Event.findExpired tenant time ::
        ((find_expired st.tasks time).map (task_trace tenant)).flatten :=
  purge_tenant_trace env tenant time st hfind

/-- C7, witness at a concrete input. -/
theorem c7_witness :
    exTenantEnvOk.findFails = false ∧
      (purge_tenant exTenantEnvOk 0 10 exStatePending).2.2 =
        Event.findExpired 0 10 ::
          ((find_expired exStatePending.tasks 10).map (task_trace 0)).flatten :=
  ⟨rfl, c7_reclaim_order exTenantEnvOk 0 10 exStatePending rfl⟩

/-! ### C8 -/

/-- C8: on the success path (root pool acquired, tenants listed), the run's
operations start with exactly acquire-root, list-tenants, release-root, and
every later operation is tenant-scoped: the root session is acquired, used
once for the listing, and released before the first tenant-scoped
acquisition, so it is never held concurrently with a tenant session. -/
theorem c8_root_session_transient (env : RunEnv) (st : Nat → TenantState)
    (h1 : env.rootPoolFails = false) (h2 : env.tenantsQueryFails = false) :
    ∃ tr, (purge_expired_presigned_tasks env st).2.2 =
        Event.acquireRoot :: Event.listTenants :: Event.releaseRoot :: tr ∧
      ∀ e ∈ tr, Event.tenantScoped e = true := by
  refine ⟨(purge_tenants_loop env st env.tenants).2.2, ?_, ?_⟩
  · simp [purge_expired_presigned_tasks, h1, h2]
  · exact fun e he => purge_tenants_loop_tenantScoped env env.tenants st he

/-- C8, witness at a concrete input. -/
theorem c8_witness :
    exEnvOk.rootPoolFails = false ∧ exEnvOk.tenantsQueryFails = false ∧
      ∃ tr, (purge_expired_presigned_tasks exEnvOk exGlobalState).2.2 =
          Event.acquireRoot :: Event.listTenants :: Event.releaseRoot :: tr ∧
        ∀ e ∈ tr, Event.tenantScoped e = true :=
  ⟨rfl, rfl, c8_root_session_transient exEnvOk exGlobalState rfl rfl⟩

/-! ### C9 -/

theorem filterMap_findTime_cons_findExpired (t : Nat) (τ : Int)
    (l : List Event) :
    (Event.findExpired t τ :: l).filterMap Event.findTime =
      τ :: l.filterMap Event.findTime :=
  rfl

theorem filterMap_deleteTaskId_cons_findExpired (t : Nat) (τ : Int)
    (l : List Event) :
    (Event.findExpired t τ :: l).filterMap Event.deleteTaskId =
      l.filterMap Event.deleteTaskId :=
  rfl

/-- C9: every expired-task query issued in the tenant loop carries the
reference time the clock yielded for that tenant (so different tenants may
be judged against different times); within one tenant's purge, the
reference time is captured exactly once — the trace contains exactly one
query, with that time — and the record deletions issued are exactly those of
the tasks that single timestamp classifies as expired. -/
theorem c9_single_reference_time (env : RunEnv) (st : Nat → TenantState)
    (tenants : List Nat) (tenant : Nat) (stT : TenantState)
    (h : (env.tenantEnv tenant).findFails = false) :
    (∀ t τ, Event.findExpired t τ ∈ (purge_tenants_loop env st tenants).2.2 →
        τ = env.clock t) ∧
      ((purge_tenant (env.tenantEnv tenant) tenant (env.clock tenant)
          stT).2.2.filterMap Event.findTime = [env.clock tenant]) ∧
      ((purge_tenant (env.tenantEnv tenant) tenant (env.clock tenant)
          stT).2.2.filterMap Event.deleteTaskId =
        (find_expired stT.tasks (env.clock tenant)).map
          (fun task => task.id)) := by
  refine ⟨fun t τ hmem =>
    purge_tenants_loop_findExpired_clock env tenants st hmem, ?_, ?_⟩
  · rw [purge_tenant_trace _ _ _ _ h, filterMap_findTime_cons_findExpired,
      flatten_filterMap_findTime]
  · rw [purge_tenant_trace _ _ _ _ h, filterMap_deleteTaskId_cons_findExpired,
      flatten_filterMap_deleteTaskId]

/-- C9, witness at a concrete input. -/
theorem c9_witness :
    (exEnvOk.tenantEnv 0).findFails = false ∧
      ((∀ t τ, Event.findExpired t τ ∈
            (purge_tenants_loop exEnvOk exGlobalState [0]).2.2 →
          τ = exEnvOk.clock t) ∧
        ((purge_tenant (exEnvOk.tenantEnv 0) 0 (exEnvOk.clock 0)
            exStatePending).2.2.filterMap Event.findTime =
          [exEnvOk.clock 0]) ∧
        ((purge_tenant (exEnvOk.tenantEnv 0) 0 (exEnvOk.clock 0)
            exStatePending).2.2.filterMap Event.deleteTaskId =
          (find_expired exStatePending.tasks (exEnvOk.clock 0)).map
            (fun task => task.id))) :=
  ⟨rfl, c9_single_reference_time exEnvOk exGlobalState [0] 0 exStatePending rfl⟩

/-! ### C10 -/

/-- C10: when the expired-task query succeeds, (1) every storage deletion
issued is for the `file_key` of some task the finder returned; (2) under the
data model's unique-id invariant, every task record the finder did not
return is still in the store afterwards; (3) every storage object whose key
is no expired task's `file_key` is still present afterwards; and (4) when
the finder returns nothing the tenant purge returns success having issued
only the query, changing nothing. -/
theorem c10_frame (env : TenantEnv) (tenant : Nat) (time : Int)
    (st : TenantState) (hfind : env.findFails = false) :
    (∀ key, Event.deleteFile tenant key ∈ (purge_tenant env tenant time st).2.2 →
        ∃ task, task ∈ find_expired st.tasks time ∧ task.file_key = key) ∧
      ((st.tasks.map (fun task => task.id)).Nodup →
        ∀ task ∈ st.tasks, task ∉ find_expired st.tasks time →
          task ∈ (purge_tenant env tenant time st).2.1.tasks) ∧
      (∀ key ∈ st.objects,
        (∀ task ∈ find_expired st.tasks time, task.file_key ≠ key) →
          key ∈ (purge_tenant env tenant time st).2.1.objects) ∧
      (find_expired st.tasks time = [] →
        purge_tenant env tenant time st =
          (Except.ok (), st, [Event.findExpired tenant time])) := by
  refine ⟨?_, ?_, ?_, ?_⟩
  · intro key hmem
    obtain ⟨task, htask, hkey, _⟩ :=
      purge_tenant_deleteFile_mem env tenant time st hmem
    exact ⟨task, htask, hkey⟩
  · intro hnodup task htask hnot
    rw [purge_tenant_state env tenant time st hfind]
    refine reclaim_tasks_task_preserved env tenant _ st htask ?_
    intro l hl hid
    have heq : l = task :=
      List.inj_on_of_nodup_map hnodup (mem_find_expired.mp hl).1 htask hid
    exact hnot (heq ▸ hl)
  · intro key hk h
    rw [purge_tenant_state env tenant time st hfind]
    exact reclaim_tasks_object_preserved env tenant _ st hk
      (fun l hl hkey => absurd hkey (h l hl))
  · intro hempty
    simp [purge_tenant, hfind, hempty]

/-- C10, witness at a concrete input: a store whose only task is not yet
expired — the purge issues only the query and deletes nothing. -/
theorem c10_witness :
    exTenantEnvOk.findFails = false ∧
      (find_expired (TenantState.mk
          [PresignedUploadTask.mk 7 "keep.bin" 99 PresignedTaskStatus.Pending]
          ["keep.bin"]).tasks 10 = [] →
        purge_tenant exTenantEnvOk 0 10 (TenantState.mk
          [PresignedUploadTask.mk 7 "keep.bin" 99 PresignedTaskStatus.Pending]
          ["keep.bin"]) =
          (Except.ok (), TenantState.mk
            [PresignedUploadTask.mk 7 "keep.bin" 99 PresignedTaskStatus.Pending]
            ["keep.bin"], [Event.findExpired 0 10])) :=
  ⟨rfl,
    (c10_frame exTenantEnvOk 0 10 (TenantState.mk
      [PresignedUploadTask.mk 7 "keep.bin" 99 PresignedTaskStatus.Pending]
      ["keep.bin"]) rfl).2.2.2⟩

end Docbox
